import Mathlib

/-!
Shallow embedding of `src/lib/gallery.ts` from `fission-codes/webnative-app-template`.

The gallery module orchestrates listing, uploading and deleting images against
the user's WNFS (webnative filesystem).  The filesystem handle (`fs`) and the
reactive gallery store are external collaborators; here they are modelled as an
explicit environment `FS` of (fallible) responses and an explicitly threaded
`Gallery` state.  Each operation returns, besides the final gallery state, a
trace of events: store calls issued, gallery-store state updates, and errors
caught (and logged) by the operation's catch block.  Asynchronous fan-out
(`Promise.all`) is modelled as the deterministic left-to-right interleaving of
the single-threaded event loop.  Informational `console.log` calls are not
traced; the `console.error(error)` / `console.log(error)` calls in the catch
blocks are traced as `Ev.caughtLog`.
-/

/-- The two gallery areas (`enum AREAS` in gallery.ts). -/
inductive AREAS
  | PUBLIC
  | PRIVATE
deriving DecidableEq

/-- A WNFS path, modelled as its list of segments
(`wn.path.directory` / `wn.path.file` build such segment lists). -/
abbrev WnPath := List String

/-- `const GALLERY_DIRS = { [AREAS.PUBLIC]: ['public', 'gallery'], [AREAS.PRIVATE]: ['private', 'gallery'] }`. -/
def GALLERY_DIRS : AREAS → WnPath
  | AREAS.PUBLIC => ["public", "gallery"]
  | AREAS.PRIVATE => ["private", "gallery"]

/-- `wn.path.file(...GALLERY_DIRS[area], name)`: the directory segments with the file name appended. -/
def filePath (area : AREAS) (name : String) : WnPath :=
  GALLERY_DIRS area ++ [name]

/-- `const FILE_SIZE_LIMIT = 5`. -/
def FILE_SIZE_LIMIT : Nat := 5

/-- The size check of `uploadImageToWNFS`.  The source computes
`image.size / (1024 * 1024) > FILE_SIZE_LIMIT` with JavaScript float division;
division by the power of two `2 ^ 20` only shifts the exponent and is exact for
every representable size, so the comparison is exactly the integer comparison
`FILE_SIZE_LIMIT * (1024 * 1024) < size`. -/
def sizeExceedsLimit (size : Nat) : Bool :=
  decide (FILE_SIZE_LIMIT * (1024 * 1024) < size)

/-! ## Image codec

`getImagesFromWNFS` builds each image's `src` as
`data:image/jpeg;base64, ${btoa(convertUint8ToString(file.content))}`.
`convertUint8ToString` lives in `$lib/common/utils`, which is not part of the
sources, and `btoa` is a platform builtin.  Modelled from the spec:
`convertUint8ToString` maps each byte to the character with that code point
(latin1) and `btoa` is standard base64 over such a latin1 string; decoding the
inline representation back is the inverse direction, which has no code in the
repository and is likewise taken from the spec's description (lossless,
round-trips to the original bytes). -/

/-- The 64 digits of standard base64, in order. -/
def base64Alphabet : List Char :=
  "ABCDEFGHIJKLMNOPQRSTUVWXYZabcdefghijklmnopqrstuvwxyz0123456789+/".toList

/-- The base64 digit for a 6-bit value (out-of-range values never occur). -/
def b64Char (n : Nat) : Char :=
  base64Alphabet.getD n 'A'

/-- Position of a character in a list, counting from `i`. -/
def charIdxFrom (c : Char) : List Char → Nat → Option Nat
  | [], _ => none
  | d :: ds, i => if d = c then some i else charIdxFrom c ds (i + 1)

/-- The 6-bit value of a base64 digit (`none` for padding or foreign characters). -/
def b64Index (c : Char) : Option Nat :=
  charIdxFrom c base64Alphabet 0

/-- Standard base64 encoding of a byte sequence, three bytes to four digits,
with `=` padding for a trailing group of one or two bytes. -/
def b64EncodeBytes : List Nat → List Char
  | [] => []
  | [b0] => [b64Char (b0 / 4), b64Char (b0 % 4 * 16), '=', '=']
  | [b0, b1] => [b64Char (b0 / 4), b64Char (b0 % 4 * 16 + b1 / 16), b64Char (b1 % 16 * 4), '=']
  | b0 :: b1 :: b2 :: rest =>
    b64Char (b0 / 4) :: b64Char (b0 % 4 * 16 + b1 / 16) ::
      b64Char (b1 % 16 * 4 + b2 / 64) :: b64Char (b2 % 64) :: b64EncodeBytes rest

/-- Decoding of one group of four base64 digits (given as their looked-up
values), together with the digits that follow and the decoding of those:
a fully padded final group yields one byte, a singly padded final group two,
and an unpadded group three bytes followed by the rest. -/
def b64Group (o0 o1 o2 o3 : Option Nat) (rest : List Char) (restDec : Option (List Nat)) :
    Option (List Nat) :=
  match o0, o1, o2, o3, rest with
  | some n0, some n1, none, none, [] => some [n0 * 4 + n1 / 16]
  | some n0, some n1, some n2, none, [] => some [n0 * 4 + n1 / 16, n1 % 16 * 16 + n2 / 4]
  | some n0, some n1, some n2, some n3, _ =>
    match restDec with
    | some bs => some ((n0 * 4 + n1 / 16) :: (n1 % 16 * 16 + n2 / 4) :: (n2 % 4 * 64 + n3) :: bs)
    | none => none
  | _, _, _, _, _ => none

/-- Standard base64 decoding, four digits to three bytes, with `=` padding
resolving a final group to one or two bytes. -/
def b64DecodeChars : List Char → Option (List Nat)
  | [] => some []
  | c0 :: c1 :: c2 :: c3 :: rest =>
    b64Group (b64Index c0) (b64Index c1) (b64Index c2) (b64Index c3) rest (b64DecodeChars rest)
  | _ => none

/-- Modelled from the spec: `convertUint8ToString` (in `$lib/common/utils`, not
among the sources) turns a byte array into the string whose i-th character has
the i-th byte as its code point, as consumed by `btoa`. -/
def convertUint8ToString (bytes : List Nat) : List Char :=
  bytes.map Char.ofNat

/-- Modelled from the spec: the platform `btoa`, standard base64 of a latin1 string. -/
def btoa (s : List Char) : List Char :=
  b64EncodeBytes (s.map Char.toNat)

/-- The fixed head of the inline `src` value, including the space the source
template writes after the comma. -/
def dataUrlHead : List Char :=
  "data:image/jpeg;base64, ".toList

/-- The inline `src` built for each listed image:
`data:image/jpeg;base64, ${btoa(convertUint8ToString(file.content as Uint8Array))}`. -/
def imageSrc (content : List Nat) : String :=
  String.mk (dataUrlHead ++ btoa (convertUint8ToString content))

/-- Modelled from the spec: the decode direction of the inline representation
(strip the fixed data-URL head, base64-decode the remainder). -/
def decodeImageSrc (s : String) : Option (List Nat) :=
  if s.data.take dataUrlHead.length = dataUrlHead then
    b64DecodeChars (s.data.drop dataUrlHead.length)
  else
    none

/-! ## Data model -/

/-- `type Image` in gallery.ts.  The `private` field is a reserved word in
Lean, hence `private'`; `id` comes from `uuid()` (`$lib/common/utils`, not
among the sources), modelled from the spec as a process-local identifier
regenerated each listing: the position of the entry in the listing. -/
structure Image where
  id : Nat
  mtime : Int
  name : String
  private' : Bool
  size : Nat
  src : String
deriving DecidableEq

/-- `type Gallery` in gallery.ts: the state held by `galleryStore`.
`null` lists are `none`. -/
structure Gallery where
  publicImages : Option (List Image)
  privateImages : Option (List Image)
  selectedArea : AREAS
  loading : Bool
deriving DecidableEq

/-- A file handle as returned by `fs.get`: its content bytes and the
modification time `file.header.metadata.unixMeta.mtime`. -/
structure WNFile where
  content : List Nat
  mtime : Int
deriving DecidableEq

/-- A browser `File` as passed to `uploadImageToWNFS` and handed to `fs.write`. -/
structure JSFile where
  name : String
  size : Nat
  content : List Nat
deriving DecidableEq

/-- An error thrown by a store primitive (network, I/O, publish, ...). -/
inductive StoreErr
  | err (msg : String)
deriving DecidableEq

/-- The errors that can be thrown inside the gallery operations: a store
primitive's failure, or one of the three errors the module itself throws. -/
inductive GErr
  | store (e : StoreErr)
  | sizeLimit
  | duplicate (name : String)
  | notFound (name : String)
deriving DecidableEq

deriving instance DecidableEq for Except

/-- The WNFS handle held in `filesystemStore`, as the gallery module uses it:
an environment of responses for each primitive.  `ls` returns the directory's
entries in listing order as `(name, size)` pairs (`Object.entries(links)`
with `links[name].size`). -/
structure FS where
  ls : WnPath → Except StoreErr (List (String × Nat))
  get : WnPath → Except StoreErr WNFile
  exists' : WnPath → Except StoreErr Bool
  write : WnPath → JSFile → Except StoreErr Unit
  rm : WnPath → Except StoreErr Unit
  publish : Except StoreErr Unit

/-- One call issued to the store. -/
inductive StoreCall
  | ls (p : WnPath)
  | get (p : WnPath)
  | exists' (p : WnPath)
  | write (p : WnPath) (f : JSFile)
  | rm (p : WnPath)
  | publish
deriving DecidableEq

/-- One observable event of an operation: a store call, a `galleryStore.update`
(recorded as the state it produced), or an error caught and logged by a catch
block. -/
inductive Ev
  | call (c : StoreCall)
  | setState (g : Gallery)
  | caughtLog (e : GErr)
deriving DecidableEq

/-- The result of one public operation: the final gallery state, the event
trace, and the error its catch block caught (`none` on success).  There is no
error channel: no exception escapes a public operation. -/
structure OpResult where
  gallery : Gallery
  trace : List Ev
  caught : Option GErr
deriving DecidableEq

/-- The store calls occurring in a trace, in order. -/
def storeCallsOf (tr : List Ev) : List StoreCall :=
  tr.filterMap fun e =>
    match e with
    | Ev.call c => some c
    | _ => none

/-- The path a store call addresses (`none` for `publish`). -/
def callPath : StoreCall → Option WnPath
  | StoreCall.ls p => some p
  | StoreCall.get p => some p
  | StoreCall.exists' p => some p
  | StoreCall.write p _ => some p
  | StoreCall.rm p => some p
  | StoreCall.publish => none

/-! ## Sorting

`images.sort((a, b) => b.mtime - a.mtime)` sorts by `mtime` descending;
`Array.prototype.sort` is a stable sort (ECMAScript 2019), so it is modelled
as stable insertion sort by the same comparator: an element moves before
another exactly when its `mtime` is strictly larger. -/

/-- Insert `x` into a descending-by-`mtime` list, before the first element
whose `mtime` is not larger, so that earlier-listed elements stay first among
equal keys. -/
def insertByMtime (x : Image) : List Image → List Image
  | [] => [x]
  | y :: ys => if y.mtime ≤ x.mtime then x :: y :: ys else y :: insertByMtime x ys

/-- Stable sort by `mtime` descending. -/
def sortByMtime : List Image → List Image
  | [] => []
  | x :: xs => insertByMtime x (sortByMtime xs)

/-! ## Operations -/

/-- One step of the `Promise.all` fan-out in `getImagesFromWNFS`: for each
`(name, size)` entry of the listing, `fs.get` the file and assemble an `Image`
record.  `Promise.all` rejects as a whole when any single fetch rejects; the
fan-out is modelled as the left-to-right interleaving, stopping at the first
failure.  `idx` is the position of the entry in the listing, standing in for
`uuid()`. -/
def fetchImages (fs : FS) (area : AREAS) (isPrivate : Bool) :
    Nat → List (String × Nat) → Except GErr (List Image) × List Ev
  | _, [] => (Except.ok [], [])
  | idx, entry :: rest =>
    let p : WnPath := filePath area entry.1
    match fs.get p with
    | Except.error e => (Except.error (GErr.store e), [Ev.call (StoreCall.get p)])
    | Except.ok file =>
      let img : Image :=
        { id := idx
          mtime := file.mtime
          name := entry.1
          private' := isPrivate
          size := entry.2
          src := imageSrc file.content }
      match fetchImages fs area isPrivate (idx + 1) rest with
      | (Except.error e, tr) => (Except.error e, Ev.call (StoreCall.get p) :: tr)
      | (Except.ok imgs, tr) => (Except.ok (img :: imgs), Ev.call (StoreCall.get p) :: tr)

/-- The `try` block of `getImagesFromWNFS`: set `loading: true`, read the
selected area, `fs.ls` the area's gallery directory, fetch and decode every
listed file, sort by `mtime` descending, and push the result into the selected
area's slot of the gallery store together with `loading: false`.  Returns the
new gallery state, or the thrown error, together with the event trace of the
block. -/
def getImagesTry (fs : FS) (g0 : Gallery) : Except GErr Gallery × List Ev :=
  let g1 : Gallery := { g0 with loading := true }
  let selectedArea := g1.selectedArea
  let isPrivate : Bool := decide (selectedArea = AREAS.PRIVATE)
  let path : WnPath := GALLERY_DIRS selectedArea
  match fs.ls path with
  | Except.error e =>
    (Except.error (GErr.store e), [Ev.setState g1, Ev.call (StoreCall.ls path)])
  | Except.ok links =>
    match fetchImages fs selectedArea isPrivate 0 links with
    | (Except.error e, ftr) =>
      (Except.error e, [Ev.setState g1, Ev.call (StoreCall.ls path)] ++ ftr)
    | (Except.ok images0, ftr) =>
      let images := sortByMtime images0
      let g2 : Gallery :=
        if isPrivate then { g1 with privateImages := some images, loading := false }
        else { g1 with publicImages := some images, loading := false }
      (Except.ok g2, [Ev.setState g1, Ev.call (StoreCall.ls path)] ++ ftr ++ [Ev.setState g2])

/-- `getImagesFromWNFS` (the spec's `loadImages`): the `try` block above,
wrapped in the catch block that logs the error and resets `loading` to false.
At the time the catch block runs, the store state differs from `g0` only in
`loading`, so its `update` produces `{ g0 with loading := false }`. -/
def getImagesFromWNFS (fs : FS) (g0 : Gallery) : OpResult :=
  match getImagesTry fs g0 with
  | (Except.ok g2, tr) => { gallery := g2, trace := tr, caught := none }
  | (Except.error e, tr) =>
    let g2 : Gallery := { g0 with loading := false }
    { gallery := g2
      trace := tr ++ [Ev.caughtLog e, Ev.setState g2]
      caught := some e }

/-- The `try` block of `uploadImageToWNFS`: read the selected area once, reject
files over the size limit, check existence of the target path, and if the name
is free write the file there and publish; a name that is already taken throws
the duplicate error. -/
def uploadTry (fs : FS) (g : Gallery) (image : JSFile) : Except GErr Unit × List Ev :=
  let selectedArea := g.selectedArea
  if sizeExceedsLimit image.size then
    (Except.error GErr.sizeLimit, [])
  else
    let p : WnPath := filePath selectedArea image.name
    match fs.exists' p with
    | Except.error e => (Except.error (GErr.store e), [Ev.call (StoreCall.exists' p)])
    | Except.ok imageExists =>
      if !imageExists then
        match fs.write p image with
        | Except.error e =>
          (Except.error (GErr.store e),
            [Ev.call (StoreCall.exists' p), Ev.call (StoreCall.write p image)])
        | Except.ok _ =>
          match fs.publish with
          | Except.error e =>
            (Except.error (GErr.store e),
              [Ev.call (StoreCall.exists' p), Ev.call (StoreCall.write p image),
                Ev.call StoreCall.publish])
          | Except.ok _ =>
            (Except.ok (),
              [Ev.call (StoreCall.exists' p), Ev.call (StoreCall.write p image),
                Ev.call StoreCall.publish])
      else
        (Except.error (GErr.duplicate image.name), [Ev.call (StoreCall.exists' p)])

/-- `uploadImageToWNFS`: the `try` block wrapped in the catch block that logs
the error.  The gallery store is never updated by an upload. -/
def uploadImageToWNFS (fs : FS) (g : Gallery) (image : JSFile) : OpResult :=
  match uploadTry fs g image with
  | (Except.ok _, tr) => { gallery := g, trace := tr, caught := none }
  | (Except.error e, tr) =>
    { gallery := g, trace := tr ++ [Ev.caughtLog e], caught := some e }

/-- The `try` block of `deleteImageFromWNFS`: read the selected area once,
check existence of the target path; if present, `fs.rm` it, publish, and
refetch the gallery via `getImagesFromWNFS` (whose own catch never rethrows);
if absent, throw the not-found error. -/
def deleteTry (fs : FS) (g : Gallery) (name : String) : Except GErr Gallery × List Ev :=
  let selectedArea := g.selectedArea
  let p : WnPath := filePath selectedArea name
  match fs.exists' p with
  | Except.error e => (Except.error (GErr.store e), [Ev.call (StoreCall.exists' p)])
  | Except.ok imageExists =>
    if imageExists then
      match fs.rm p with
      | Except.error e =>
        (Except.error (GErr.store e),
          [Ev.call (StoreCall.exists' p), Ev.call (StoreCall.rm p)])
      | Except.ok _ =>
        match fs.publish with
        | Except.error e =>
          (Except.error (GErr.store e),
            [Ev.call (StoreCall.exists' p), Ev.call (StoreCall.rm p),
              Ev.call StoreCall.publish])
        | Except.ok _ =>
          let r := getImagesFromWNFS fs g
          (Except.ok r.gallery,
            [Ev.call (StoreCall.exists' p), Ev.call (StoreCall.rm p),
              Ev.call StoreCall.publish] ++ r.trace)
    else
      (Except.error (GErr.notFound name), [Ev.call (StoreCall.exists' p)])

/-- `deleteImageFromWNFS`: the `try` block wrapped in the catch block that
logs the error; on failure the gallery store is untouched. -/
def deleteImageFromWNFS (fs : FS) (g : Gallery) (name : String) : OpResult :=
  match deleteTry fs g name with
  | (Except.ok g2, tr) => { gallery := g2, trace := tr, caught := none }
  | (Except.error e, tr) =>
    { gallery := g, trace := tr ++ [Ev.caughtLog e], caught := some e }

/-- The `Promise.all(Array.from(files).map(file => uploadImageToWNFS(file)))`
fan-out of `handleFileInput`: each upload settles (its catch block swallows
every failure) and none of them touches the gallery store, modelled as the
left-to-right interleaving of the uploads' traces. -/
def runBatchUploads (fs : FS) (g : Gallery) : List JSFile → List Ev
  | [] => []
  | f :: rest => (uploadImageToWNFS fs g f).trace ++ runBatchUploads fs g rest

/-- `handleFileInput`: upload every picked file, await them all, then refetch
the gallery exactly once. -/
def handleFileInput (fs : FS) (g : Gallery) (files : List JSFile) : Gallery × List Ev :=
  let tr := runBatchUploads fs g files
  let r := getImagesFromWNFS fs g
  (r.gallery, tr ++ r.trace)

/-! ## Concrete environments (used by the witnesses) -/

/-- The public gallery directory. -/
def pubDir : WnPath := ["public", "gallery"]

/-- Demo file `a.jpg` of the spec's scenario (`mtime = 10`). -/
def fileA : WNFile := { content := [1, 2, 3], mtime := 10 }

/-- Demo file `b.jpg` of the spec's scenario (`mtime = 20`). -/
def fileB : WNFile := { content := [4, 5, 6], mtime := 20 }

/-- A store whose public gallery holds `a.jpg` and `b.jpg` (in that listing
order) and accepts writes, removals and publishes. -/
def fsDemo : FS :=
  { ls := fun p => if p = pubDir then Except.ok [("a.jpg", 100), ("b.jpg", 50)]
      else Except.error (StoreErr.err "missing dir")
    get := fun p =>
      if p = pubDir ++ ["a.jpg"] then Except.ok fileA
      else if p = pubDir ++ ["b.jpg"] then Except.ok fileB
      else Except.error (StoreErr.err "missing file")
    exists' := fun p => Except.ok (decide (p = pubDir ++ ["a.jpg"]))
    write := fun _ _ => Except.ok ()
    rm := fun _ => Except.ok ()
    publish := Except.ok () }

/-- A store whose every primitive fails. -/
def fsDown : FS :=
  { ls := fun _ => Except.error (StoreErr.err "offline")
    get := fun _ => Except.error (StoreErr.err "offline")
    exists' := fun _ => Except.error (StoreErr.err "offline")
    write := fun _ _ => Except.error (StoreErr.err "offline")
    rm := fun _ => Except.error (StoreErr.err "offline")
    publish := Except.error (StoreErr.err "offline") }

/-- A gallery state with nothing loaded and the public area selected. -/
def gPub : Gallery :=
  { publicImages := none, privateImages := none, selectedArea := AREAS.PUBLIC, loading := false }

/-- A small upload that passes the size check and whose name is free in `fsDemo`. -/
def demoFile : JSFile := { name := "c.jpg", size := 100, content := [9, 9] }

/-- An upload over the 5 MiB limit. -/
def bigFile : JSFile := { name := "big.jpg", size := 6 * 1024 * 1024, content := [] }

/-- An upload of exactly 5 MiB. -/
def exactFile : JSFile := { name := "exact.jpg", size := 5 * 1024 * 1024, content := [] }

/-- An upload whose name is already taken in `fsDemo`. -/
def dupFile : JSFile := { name := "a.jpg", size := 10, content := [7] }

/-- The two images of the spec's scenario in listing order, as `fetchImages`
assembles them from `fsDemo`. -/
def demoImgs : List Image :=
  [ { id := 0, mtime := 10, name := "a.jpg", private' := false, size := 100,
      src := imageSrc [1, 2, 3] }
  , { id := 1, mtime := 20, name := "b.jpg", private' := false, size := 50,
      src := imageSrc [4, 5, 6] } ]

/-! ## Helper lemmas -/

set_option maxRecDepth 40000

/-- Looking a base64 digit back up recovers its 6-bit value, and no digit is
the padding character. -/
theorem b64Char_spec : ∀ n, n < 64 → b64Index (b64Char n) = some n ∧ b64Char n ≠ '=' := by
  decide

/-- The padding character is not a base64 digit. -/
theorem b64Index_pad : b64Index '=' = none := by decide

/-- Base64 decoding is a left inverse of base64 encoding on byte sequences. -/
theorem b64_roundtrip : ∀ (bs : List Nat), (∀ b ∈ bs, b < 256) →
    b64DecodeChars (b64EncodeBytes bs) = some bs
  | [], _ => rfl
  | [b0], h => by
    have hb0 : b0 < 256 := h b0 (by simp)
    have h0 : b0 / 4 < 64 := by omega
    have h1 : b0 % 4 * 16 < 64 := by omega
    simp only [b64EncodeBytes, b64DecodeChars, (b64Char_spec _ h0).1, (b64Char_spec _ h1).1,
      b64Index_pad, b64Group, Option.some.injEq, List.cons.injEq, and_true]
    omega
  | [b0, b1], h => by
    have hb0 : b0 < 256 := h b0 (by simp)
    have hb1 : b1 < 256 := h b1 (by simp)
    have h0 : b0 / 4 < 64 := by omega
    have h1 : b0 % 4 * 16 + b1 / 16 < 64 := by omega
    have h2 : b1 % 16 * 4 < 64 := by omega
    simp only [b64EncodeBytes, b64DecodeChars, (b64Char_spec _ h0).1, (b64Char_spec _ h1).1,
      (b64Char_spec _ h2).1, b64Index_pad, b64Group, Option.some.injEq, List.cons.injEq, and_true]
    constructor <;> omega
  | b0 :: b1 :: b2 :: rest, h => by
    have hb0 : b0 < 256 := h b0 (by simp)
    have hb1 : b1 < 256 := h b1 (by simp)
    have hb2 : b2 < 256 := h b2 (by simp)
    have h0 : b0 / 4 < 64 := by omega
    have h1 : b0 % 4 * 16 + b1 / 16 < 64 := by omega
    have h2 : b1 % 16 * 4 + b2 / 64 < 64 := by omega
    have h3 : b2 % 64 < 64 := by omega
    have ih := b64_roundtrip rest (fun b hb => h b (by simp [hb]))
    simp only [b64EncodeBytes, b64DecodeChars, (b64Char_spec _ h0).1, (b64Char_spec _ h1).1,
      (b64Char_spec _ h2).1, (b64Char_spec _ h3).1, ih, b64Group, Option.some.injEq,
      List.cons.injEq, and_true]
    refine ⟨by omega, by omega, by omega⟩

/-- Taking the length of the left summand of an append returns it. -/
theorem takeLenAppend {α : Type} (l m : List α) : (l ++ m).take l.length = l := by
  induction l with
  | nil => rfl
  | cons a l ih => simp [List.take, ih]

/-- Dropping the length of the left summand of an append returns the right summand. -/
theorem dropLenAppend {α : Type} (l m : List α) : (l ++ m).drop l.length = m := by
  induction l with
  | nil => rfl
  | cons a l ih => simp [List.drop, ih]

/-- The code point of the character of a byte is the byte. -/
theorem charRT : ∀ b, b < 256 → (Char.ofNat b).toNat = b := by decide

/-- Membership after insertion. -/
theorem mem_insertByMtime {x z : Image} : ∀ {l : List Image},
    z ∈ insertByMtime x l → z = x ∨ z ∈ l
  | [], h => by simpa [insertByMtime] using h
  | y :: ys, h => by
    rw [insertByMtime] at h
    by_cases hc : y.mtime ≤ x.mtime
    · rw [if_pos hc] at h
      simpa using h
    · rw [if_neg hc] at h
      rcases List.mem_cons.1 h with h1 | h1
      · exact Or.inr (by simp [h1])
      · rcases mem_insertByMtime h1 with h2 | h2
        · exact Or.inl h2
        · exact Or.inr (by simp [h2])

/-- Insertion keeps a descending-by-`mtime` list descending. -/
theorem pairwise_insertByMtime {x : Image} : ∀ {l : List Image},
    List.Pairwise (fun a b => b.mtime ≤ a.mtime) l →
    List.Pairwise (fun a b => b.mtime ≤ a.mtime) (insertByMtime x l)
  | [], _ => by simp [insertByMtime]
  | y :: ys, h => by
    rw [insertByMtime]
    rcases List.pairwise_cons.1 h with ⟨hy, hys⟩
    by_cases hc : y.mtime ≤ x.mtime
    · rw [if_pos hc]
      refine List.pairwise_cons.2 ⟨?_, h⟩
      intro z hz
      rcases List.mem_cons.1 hz with h1 | h1
      · subst h1; exact hc
      · exact le_trans (hy z h1) hc
    · rw [if_neg hc]
      refine List.pairwise_cons.2 ⟨?_, pairwise_insertByMtime hys⟩
      intro z hz
      rcases mem_insertByMtime hz with h1 | h1
      · subst h1; omega
      · exact hy z h1

/-- The sort's output is descending by `mtime`. -/
theorem sortByMtime_sorted : ∀ l : List Image,
    List.Pairwise (fun a b => b.mtime ≤ a.mtime) (sortByMtime l)
  | [] => by simp [sortByMtime]
  | x :: xs => by
    rw [sortByMtime]
    exact pairwise_insertByMtime (sortByMtime_sorted xs)

/-- Insertion does not disturb the subsequence of any fixed `mtime` value. -/
theorem filter_insertByMtime (m : Int) (x : Image) : ∀ l : List Image,
    (insertByMtime x l).filter (fun i => decide (i.mtime = m)) =
      (x :: l).filter (fun i => decide (i.mtime = m))
  | [] => by simp [insertByMtime]
  | y :: ys => by
    rw [insertByMtime]
    by_cases hc : y.mtime ≤ x.mtime
    · rw [if_pos hc]
    · rw [if_neg hc]
      by_cases hx : x.mtime = m
      · have hy : ¬ y.mtime = m := by omega
        simp [List.filter_cons, hx, hy, filter_insertByMtime m x ys]
      · simp [List.filter_cons, hx, filter_insertByMtime m x ys]

/-- Stability: the sort preserves the relative order of entries with equal
`mtime`. -/
theorem sortByMtime_filter (m : Int) : ∀ l : List Image,
    (sortByMtime l).filter (fun i => decide (i.mtime = m)) =
      l.filter (fun i => decide (i.mtime = m))
  | [] => rfl
  | x :: xs => by
    rw [sortByMtime, filter_insertByMtime m x (sortByMtime xs)]
    simp [List.filter_cons, sortByMtime_filter m xs]

/-- Insertion permutes. -/
theorem perm_insertByMtime (x : Image) : ∀ l : List Image,
    List.Perm (insertByMtime x l) (x :: l)
  | [] => by simp [insertByMtime]
  | y :: ys => by
    rw [insertByMtime]
    by_cases hc : y.mtime ≤ x.mtime
    · rw [if_pos hc]
    · rw [if_neg hc]
      exact (List.Perm.cons y (perm_insertByMtime x ys)).trans (List.Perm.swap x y ys)

/-- The sort permutes its input. -/
theorem sortByMtime_perm : ∀ l : List Image, List.Perm (sortByMtime l) l
  | [] => List.Perm.refl []
  | x :: xs => by
    rw [sortByMtime]
    exact (perm_insertByMtime x (sortByMtime xs)).trans (List.Perm.cons x (sortByMtime_perm xs))

/-- The names of the images assembled by the fan-out are the listed names, in
listing order. -/
theorem fetchImages_names (fs : FS) (area : AREAS) (ispriv : Bool) :
    ∀ (idx : Nat) (links : List (String × Nat)) (imgs : List Image),
      (fetchImages fs area ispriv idx links).1 = Except.ok imgs →
      imgs.map (fun i => i.name) = links.map Prod.fst
  | idx, [], imgs, h => by
    simp [fetchImages] at h
    simp [← h]
  | idx, entry :: rest, imgs, h => by
    rw [fetchImages] at h
    cases hget : fs.get (filePath area entry.1) with
    | error e => rw [hget] at h; simp at h
    | ok file =>
      rw [hget] at h
      cases hrec : fetchImages fs area ispriv (idx + 1) rest with
      | mk res tr =>
        rw [hrec] at h
        cases res with
        | error e => simp at h
        | ok imgs2 =>
          simp at h
          have ih := fetchImages_names fs area ispriv (idx + 1) rest imgs2 (by rw [hrec])
          simp [← h, ih]

/-- The batch fan-out is the concatenation of the individual uploads' traces. -/
theorem runBatchUploads_eq (fs : FS) (g : Gallery) : ∀ files : List JSFile,
    runBatchUploads fs g files = (files.map fun f => (uploadImageToWNFS fs g f).trace).flatten
  | [] => rfl
  | f :: rest => by
    rw [runBatchUploads, runBatchUploads_eq fs g rest]
    simp

/-! ## Claims -/

/-- Claim C1: every public operation (`getImagesFromWNFS`, `uploadImageToWNFS`,
`deleteImageFromWNFS`) catches every failure of its try block internally, logs
it, and surfaces it as a failed outcome (`caught`); no exception propagates to
the caller — the operations' result type has no error channel, and the caught
error is exactly the error the try block threw, with the corresponding log
event appended to the trace. -/
theorem gallery_ops_catch_and_log (fs : FS) (g : Gallery) (image : JSFile) (name : String) :
    (∀ e, (uploadTry fs g image).1 = Except.error e →
      (uploadImageToWNFS fs g image).caught = some e ∧
      (uploadImageToWNFS fs g image).trace = (uploadTry fs g image).2 ++ [Ev.caughtLog e]) ∧
    (∀ u : Unit, (uploadTry fs g image).1 = Except.ok u →
      (uploadImageToWNFS fs g image).caught = none ∧
      (uploadImageToWNFS fs g image).trace = (uploadTry fs g image).2) ∧
    (∀ e, (deleteTry fs g name).1 = Except.error e →
      (deleteImageFromWNFS fs g name).caught = some e ∧
      (deleteImageFromWNFS fs g name).trace = (deleteTry fs g name).2 ++ [Ev.caughtLog e]) ∧
    (∀ g2, (deleteTry fs g name).1 = Except.ok g2 →
      (deleteImageFromWNFS fs g name).caught = none ∧
      (deleteImageFromWNFS fs g name).trace = (deleteTry fs g name).2) ∧
    (∀ e, (getImagesTry fs g).1 = Except.error e →
      (getImagesFromWNFS fs g).caught = some e ∧
      (getImagesFromWNFS fs g).trace =
        (getImagesTry fs g).2 ++
          [Ev.caughtLog e, Ev.setState { g with loading := false }]) ∧
    (∀ g2, (getImagesTry fs g).1 = Except.ok g2 →
      (getImagesFromWNFS fs g).caught = none ∧
      (getImagesFromWNFS fs g).trace = (getImagesTry fs g).2) := by
  refine ⟨?_, ?_, ?_, ?_, ?_, ?_⟩
  · intro e he
    cases hu : uploadTry fs g image with
    | mk res tr =>
      rw [hu] at he
      simp at he
      subst he
      simp [uploadImageToWNFS, hu]
  · intro u hu'
    cases hu : uploadTry fs g image with
    | mk res tr =>
      rw [hu] at hu'
      simp at hu'
      cases res with
      | error e => simp at hu'
      | ok v => simp [uploadImageToWNFS, hu]
  · intro e he
    cases hd : deleteTry fs g name with
    | mk res tr =>
      rw [hd] at he
      simp at he
      subst he
      simp [deleteImageFromWNFS, hd]
  · intro g2 hg
    cases hd : deleteTry fs g name with
    | mk res tr =>
      rw [hd] at hg
      simp at hg
      subst hg
      simp [deleteImageFromWNFS, hd]
  · intro e he
    cases hg : getImagesTry fs g with
    | mk res tr =>
      rw [hg] at he
      simp at he
      subst he
      simp [getImagesFromWNFS, hg]
  · intro g2 hg'
    cases hg : getImagesTry fs g with
    | mk res tr =>
      rw [hg] at hg'
      simp at hg'
      subst hg'
      simp [getImagesFromWNFS, hg]

/-- Witness for C1 at concrete inputs: an over-limit upload surfaces the size
error, a fresh upload succeeds, deleting a missing name surfaces the not-found
error, and a listing against an unreachable store surfaces the store error. -/
theorem gallery_ops_catch_and_log_witness :
    (uploadImageToWNFS fsDemo gPub bigFile).caught = some GErr.sizeLimit ∧
    (uploadImageToWNFS fsDemo gPub demoFile).caught = none ∧
    (deleteImageFromWNFS fsDemo gPub "zzz.jpg").caught = some (GErr.notFound "zzz.jpg") ∧
    (getImagesFromWNFS fsDown gPub).caught = some (GErr.store (StoreErr.err "offline")) :=
  ⟨((gallery_ops_catch_and_log fsDemo gPub bigFile "x").1 GErr.sizeLimit (by decide)).1,
   ((gallery_ops_catch_and_log fsDemo gPub demoFile "x").2.1 () (by decide)).1,
   ((gallery_ops_catch_and_log fsDemo gPub demoFile "zzz.jpg").2.2.1
      (GErr.notFound "zzz.jpg") (by decide)).1,
   ((gallery_ops_catch_and_log fsDown gPub demoFile "x").2.2.2.2.1
      (GErr.store (StoreErr.err "offline")) (by decide)).1⟩

/-- Claim C2: `getImagesFromWNFS` never mutates the non-selected area's image
list or `selectedArea`; on success only the selected area's slot is replaced,
and on any failure the state is unchanged except `loading` returning to
false. -/
theorem loadImages_frame (fs : FS) (g : Gallery) :
    (getImagesFromWNFS fs g).gallery.selectedArea = g.selectedArea ∧
    (getImagesFromWNFS fs g).gallery.loading = false ∧
    (g.selectedArea = AREAS.PRIVATE →
      (getImagesFromWNFS fs g).gallery.publicImages = g.publicImages) ∧
    (g.selectedArea = AREAS.PUBLIC →
      (getImagesFromWNFS fs g).gallery.privateImages = g.privateImages) ∧
    ((getImagesFromWNFS fs g).caught ≠ none →
      (getImagesFromWNFS fs g).gallery = { g with loading := false }) := by
  cases hls : fs.ls (GALLERY_DIRS g.selectedArea) with
  | error e =>
    simp [getImagesFromWNFS, getImagesTry, hls]
  | ok links =>
    cases hf : fetchImages fs g.selectedArea (decide (g.selectedArea = AREAS.PRIVATE)) 0 links with
    | mk res ftr =>
      cases res with
      | error e =>
        simp [getImagesFromWNFS, getImagesTry, hls, hf]
      | ok imgs0 =>
        cases hp : g.selectedArea with
        | PRIVATE =>
          rw [hp] at hls hf
          simp at hf
          simp [getImagesFromWNFS, getImagesTry, hp, hls, hf]
        | PUBLIC =>
          rw [hp] at hls hf
          simp at hf
          simp [getImagesFromWNFS, getImagesTry, hp, hls, hf]

/-- Witness for C2 at concrete inputs: a successful public listing keeps the
private slot and the selected area, and a failed listing only resets
`loading`. -/
theorem loadImages_frame_witness :
    (getImagesFromWNFS fsDemo gPub).gallery.selectedArea = gPub.selectedArea ∧
    (getImagesFromWNFS fsDemo gPub).gallery.privateImages = gPub.privateImages ∧
    (getImagesFromWNFS fsDown gPub).gallery = { gPub with loading := false } :=
  ⟨(loadImages_frame fsDemo gPub).1,
   (loadImages_frame fsDemo gPub).2.2.2.1 (by decide),
   (loadImages_frame fsDown gPub).2.2.2.2 (by decide)⟩

/-- Claim C3: a successful `getImagesFromWNFS` publishes to the selected
area's slot exactly the fetched images sorted by `mtime` descending, the sort
is stable (entries with equal `mtime` keep the listing's relative order), the
fetched images are in listing order, and nothing is added or dropped. -/
theorem loadImages_sorted_stable (fs : FS) (g : Gallery) (links : List (String × Nat))
    (imgs0 : List Image)
    (hls : fs.ls (GALLERY_DIRS g.selectedArea) = Except.ok links)
    (hf : (fetchImages fs g.selectedArea (decide (g.selectedArea = AREAS.PRIVATE)) 0 links).1 =
      Except.ok imgs0) :
    (if g.selectedArea = AREAS.PRIVATE then (getImagesFromWNFS fs g).gallery.privateImages
      else (getImagesFromWNFS fs g).gallery.publicImages) = some (sortByMtime imgs0) ∧
    List.Pairwise (fun a b => b.mtime ≤ a.mtime) (sortByMtime imgs0) ∧
    (∀ m : Int, (sortByMtime imgs0).filter (fun i => decide (i.mtime = m)) =
      imgs0.filter (fun i => decide (i.mtime = m))) ∧
    imgs0.map (fun i => i.name) = links.map Prod.fst ∧
    List.Perm (sortByMtime imgs0) imgs0 := by
  refine ⟨?_, sortByMtime_sorted imgs0, fun m => sortByMtime_filter m imgs0,
    fetchImages_names fs g.selectedArea _ 0 links imgs0 hf, sortByMtime_perm imgs0⟩
  cases hfp : fetchImages fs g.selectedArea (decide (g.selectedArea = AREAS.PRIVATE)) 0 links with
  | mk res ftr =>
    rw [hfp] at hf
    simp at hf
    subst hf
    cases hp : g.selectedArea with
    | PRIVATE =>
      rw [hp] at hls hfp
      simp at hfp
      simp [getImagesFromWNFS, getImagesTry, hp, hls, hfp]
    | PUBLIC =>
      rw [hp] at hls hfp
      simp at hfp
      simp [getImagesFromWNFS, getImagesTry, hp, hls, hfp]

/-- Witness for C3 at the spec's scenario: the public store holds `a.jpg`
(mtime 10) then `b.jpg` (mtime 20); the published list is the stable
descending sort of the two fetched records, i.e. `[b.jpg, a.jpg]`. -/
theorem loadImages_sorted_stable_witness :
    (getImagesFromWNFS fsDemo gPub).gallery.publicImages = some (sortByMtime demoImgs) ∧
    List.Pairwise (fun a b => b.mtime ≤ a.mtime) (sortByMtime demoImgs) ∧
    demoImgs.map (fun i => i.name) = ["a.jpg", "b.jpg"] ∧
    (sortByMtime demoImgs).map (fun i => i.name) = ["b.jpg", "a.jpg"] := by
  have h := loadImages_sorted_stable fsDemo gPub [("a.jpg", 100), ("b.jpg", 50)] demoImgs
    (by decide) (by decide)
  exact ⟨by simpa [gPub] using h.1, h.2.1, by simpa using h.2.2.2.1, by decide⟩

/-- Claim C4: an upload whose size exceeds 5 MiB fails with the size-limit
error and issues no store call at all; an upload of exactly 5 MiB passes the
size check — its first store call is the existence check at the resolved path
and it never fails with the size-limit error. -/
theorem upload_size_boundary (fs : FS) (g : Gallery) (image : JSFile) :
    (FILE_SIZE_LIMIT * (1024 * 1024) < image.size →
      (uploadImageToWNFS fs g image).caught = some GErr.sizeLimit ∧
      storeCallsOf (uploadImageToWNFS fs g image).trace = []) ∧
    (image.size = FILE_SIZE_LIMIT * (1024 * 1024) →
      (storeCallsOf (uploadImageToWNFS fs g image).trace).head? =
        some (StoreCall.exists' (filePath g.selectedArea image.name)) ∧
      (uploadImageToWNFS fs g image).caught ≠ some GErr.sizeLimit) := by
  constructor
  · intro hbig
    have hsz : sizeExceedsLimit image.size = true := by
      simp [sizeExceedsLimit]
      exact hbig
    simp [uploadImageToWNFS, uploadTry, hsz, storeCallsOf]
  · intro hexact
    have hsz : sizeExceedsLimit image.size = false := by
      rw [hexact]
      decide
    cases hex : fs.exists' (filePath g.selectedArea image.name) with
    | error e => simp [uploadImageToWNFS, uploadTry, hsz, hex, storeCallsOf]
    | ok b =>
      cases b with
      | false =>
        cases hw : fs.write (filePath g.selectedArea image.name) image with
        | error e => simp [uploadImageToWNFS, uploadTry, hsz, hex, hw, storeCallsOf]
        | ok u =>
          cases hp : fs.publish with
          | error e => simp [uploadImageToWNFS, uploadTry, hsz, hex, hw, hp, storeCallsOf]
          | ok v => simp [uploadImageToWNFS, uploadTry, hsz, hex, hw, hp, storeCallsOf]
      | true => simp [uploadImageToWNFS, uploadTry, hsz, hex, storeCallsOf]

/-- Witness for C4: a 6 MiB upload is rejected without any store call, and an
exactly-5 MiB upload reaches the store's existence check. -/
theorem upload_size_boundary_witness :
    ((uploadImageToWNFS fsDemo gPub bigFile).caught = some GErr.sizeLimit ∧
      storeCallsOf (uploadImageToWNFS fsDemo gPub bigFile).trace = []) ∧
    (storeCallsOf (uploadImageToWNFS fsDemo gPub exactFile).trace).head? =
      some (StoreCall.exists' (filePath gPub.selectedArea exactFile.name)) :=
  ⟨(upload_size_boundary fsDemo gPub bigFile).1 (by decide),
   ((upload_size_boundary fsDemo gPub exactFile).2 (by decide)).1⟩

/-- Claim C5: an upload that passes the size check and targets an existing
name fails with the duplicate error and never invokes the store's write (the
only store call is the existence check); with a free name and an accepted
write it issues exactly the existence check, then exactly one write of the
file, then exactly one publish. -/
theorem upload_duplicate_and_sequence (fs : FS) (g : Gallery) (image : JSFile)
    (hsize : ¬ FILE_SIZE_LIMIT * (1024 * 1024) < image.size) :
    (fs.exists' (filePath g.selectedArea image.name) = Except.ok true →
      (uploadImageToWNFS fs g image).caught = some (GErr.duplicate image.name) ∧
      storeCallsOf (uploadImageToWNFS fs g image).trace =
        [StoreCall.exists' (filePath g.selectedArea image.name)]) ∧
    (fs.exists' (filePath g.selectedArea image.name) = Except.ok false →
      fs.write (filePath g.selectedArea image.name) image = Except.ok () →
      storeCallsOf (uploadImageToWNFS fs g image).trace =
        [StoreCall.exists' (filePath g.selectedArea image.name),
          StoreCall.write (filePath g.selectedArea image.name) image, StoreCall.publish]) := by
  have hsz : sizeExceedsLimit image.size = false := by
    simpa [sizeExceedsLimit] using hsize
  constructor
  · intro hex
    simp [uploadImageToWNFS, uploadTry, hsz, hex, storeCallsOf]
  · intro hex hw
    cases hp : fs.publish with
    | error e => simp [uploadImageToWNFS, uploadTry, hsz, hex, hw, hp, storeCallsOf]
    | ok v => simp [uploadImageToWNFS, uploadTry, hsz, hex, hw, hp, storeCallsOf]

/-- Witness for C5: uploading the already-present `a.jpg` duplicates (no write
call); uploading the fresh `c.jpg` issues existence check, write, publish. -/
theorem upload_duplicate_and_sequence_witness :
    ((uploadImageToWNFS fsDemo gPub dupFile).caught = some (GErr.duplicate dupFile.name) ∧
      storeCallsOf (uploadImageToWNFS fsDemo gPub dupFile).trace =
        [StoreCall.exists' (filePath gPub.selectedArea dupFile.name)]) ∧
    storeCallsOf (uploadImageToWNFS fsDemo gPub demoFile).trace =
      [StoreCall.exists' (filePath gPub.selectedArea demoFile.name),
        StoreCall.write (filePath gPub.selectedArea demoFile.name) demoFile,
        StoreCall.publish] :=
  ⟨(upload_duplicate_and_sequence fsDemo gPub dupFile (by decide)).1 (by decide),
   (upload_duplicate_and_sequence fsDemo gPub demoFile (by decide)).2 (by decide) (by decide)⟩

/-- Claim C6: deleting a name that does not exist at the resolved path fails
with the not-found error, the store's remove is never invoked (the only store
call is the existence check) and the gallery state is untouched; deleting an
existing name (with the store accepting the remove and the publish) performs
exactly one remove, then exactly one publish, then exactly one
`getImagesFromWNFS` refresh, in that order, and ends in the refresh's state. -/
theorem delete_notfound_and_sequence (fs : FS) (g : Gallery) (name : String) :
    (fs.exists' (filePath g.selectedArea name) = Except.ok false →
      (deleteImageFromWNFS fs g name).caught = some (GErr.notFound name) ∧
      storeCallsOf (deleteImageFromWNFS fs g name).trace =
        [StoreCall.exists' (filePath g.selectedArea name)] ∧
      (deleteImageFromWNFS fs g name).gallery = g) ∧
    (fs.exists' (filePath g.selectedArea name) = Except.ok true →
      fs.rm (filePath g.selectedArea name) = Except.ok () →
      fs.publish = Except.ok () →
      (deleteImageFromWNFS fs g name).trace =
        [Ev.call (StoreCall.exists' (filePath g.selectedArea name)),
          Ev.call (StoreCall.rm (filePath g.selectedArea name)),
          Ev.call StoreCall.publish] ++ (getImagesFromWNFS fs g).trace ∧
      (deleteImageFromWNFS fs g name).gallery = (getImagesFromWNFS fs g).gallery) := by
  constructor
  · intro hex
    simp [deleteImageFromWNFS, deleteTry, hex, storeCallsOf]
  · intro hex hrm hp
    simp [deleteImageFromWNFS, deleteTry, hex, hrm, hp]

/-- Witness for C6: deleting the missing `zzz.jpg` not-founds without a remove
call and leaves the gallery as it was; deleting the present `a.jpg` issues
existence check, remove, publish and then exactly the refresh's trace. -/
theorem delete_notfound_and_sequence_witness :
    ((deleteImageFromWNFS fsDemo gPub "zzz.jpg").caught = some (GErr.notFound "zzz.jpg") ∧
      storeCallsOf (deleteImageFromWNFS fsDemo gPub "zzz.jpg").trace =
        [StoreCall.exists' (filePath gPub.selectedArea "zzz.jpg")] ∧
      (deleteImageFromWNFS fsDemo gPub "zzz.jpg").gallery = gPub) ∧
    (deleteImageFromWNFS fsDemo gPub "a.jpg").trace =
      [Ev.call (StoreCall.exists' (filePath gPub.selectedArea "a.jpg")),
        Ev.call (StoreCall.rm (filePath gPub.selectedArea "a.jpg")),
        Ev.call StoreCall.publish] ++ (getImagesFromWNFS fsDemo gPub).trace :=
  ⟨(delete_notfound_and_sequence fsDemo gPub "zzz.jpg").1 (by decide),
   ((delete_notfound_and_sequence fsDemo gPub "a.jpg").2 (by decide) (by decide) (by decide)).1⟩

/-- Claim C7: `getImagesFromWNFS` sets `loading` to true as its very first
event — before any store call — and on every path (success and each failure)
the final state has `loading = false`; it never leaves the gallery stuck
loading. -/
theorem loadImages_loading_flag (fs : FS) (g : Gallery) :
    (getImagesFromWNFS fs g).trace.head? = some (Ev.setState { g with loading := true }) ∧
    (getImagesFromWNFS fs g).gallery.loading = false := by
  cases hls : fs.ls (GALLERY_DIRS g.selectedArea) with
  | error e =>
    simp [getImagesFromWNFS, getImagesTry, hls]
  | ok links =>
    cases hf : fetchImages fs g.selectedArea (decide (g.selectedArea = AREAS.PRIVATE)) 0 links with
    | mk res ftr =>
      cases res with
      | error e =>
        simp [getImagesFromWNFS, getImagesTry, hls, hf]
      | ok imgs0 =>
        cases hp : g.selectedArea with
        | PRIVATE =>
          rw [hp] at hls hf
          simp at hf
          simp [getImagesFromWNFS, getImagesTry, hp, hls, hf]
        | PUBLIC =>
          rw [hp] at hls hf
          simp at hf
          simp [getImagesFromWNFS, getImagesTry, hp, hls, hf]

/-- Claim C8: `handleFileInput` runs one upload per picked file — every upload
settles regardless of individual failures, since uploads have no error channel
— and afterwards performs exactly one `getImagesFromWNFS` refresh: its trace
is the concatenation of each file's upload trace followed by a single
refresh's trace, and its final state is that single refresh's state. -/
theorem handleFileInput_batch (fs : FS) (g : Gallery) (files : List JSFile) :
    (handleFileInput fs g files).2 =
      (files.map fun f => (uploadImageToWNFS fs g f).trace).flatten ++
        (getImagesFromWNFS fs g).trace ∧
    (handleFileInput fs g files).1 = (getImagesFromWNFS fs g).gallery := by
  unfold handleFileInput
  rw [runBatchUploads_eq]
  exact ⟨rfl, rfl⟩

/-- Claim C9: the inline image representation built for each listed file is a
data URL embedding the raw bytes, and the encoding is lossless: decoding the
inline representation yields exactly the original bytes. -/
theorem imageSrc_roundtrip (content : List Nat) (h : ∀ b ∈ content, b < 256) :
    decodeImageSrc (imageSrc content) = some content := by
  have hmap : (convertUint8ToString content).map Char.toNat = content := by
    unfold convertUint8ToString
    rw [List.map_map]
    have hpt : ∀ b ∈ content, (Char.toNat ∘ Char.ofNat) b = id b := fun b hb => charRT b (h b hb)
    rw [List.map_congr_left hpt, List.map_id]
  have hdata : (imageSrc content).data = dataUrlHead ++ btoa (convertUint8ToString content) := rfl
  unfold decodeImageSrc
  rw [hdata, takeLenAppend, dropLenAppend, if_pos rfl]
  unfold btoa
  rw [hmap]
  exact b64_roundtrip content h

/-- Witness for C9 at concrete bytes, covering a partial final group. -/
theorem imageSrc_roundtrip_witness :
    decodeImageSrc (imageSrc [255, 0, 7, 128]) = some [255, 0, 7, 128] :=
  imageSrc_roundtrip [255, 0, 7, 128] (by decide)

/-- Claim C10: within one `uploadImageToWNFS` call the selected area is read
once at entry, so every path-addressed store call of the upload (the existence
check and the write) resolves the same path — the entry-time area's directory
with the file's name — even though the call suspends on store I/O in
between. -/
theorem upload_single_area_read (fs : FS) (g : Gallery) (image : JSFile) :
    ∀ c ∈ storeCallsOf (uploadImageToWNFS fs g image).trace,
      c = StoreCall.publish ∨ callPath c = some (filePath g.selectedArea image.name) := by
  intro c hc
  cases hsz : sizeExceedsLimit image.size with
  | true => simp [uploadImageToWNFS, uploadTry, hsz, storeCallsOf] at hc
  | false =>
    cases hex : fs.exists' (filePath g.selectedArea image.name) with
    | error e =>
      simp [uploadImageToWNFS, uploadTry, hsz, hex, storeCallsOf] at hc
      subst hc
      simp [callPath]
    | ok b =>
      cases b with
      | true =>
        simp [uploadImageToWNFS, uploadTry, hsz, hex, storeCallsOf] at hc
        subst hc
        simp [callPath]
      | false =>
        cases hw : fs.write (filePath g.selectedArea image.name) image with
        | error e =>
          simp [uploadImageToWNFS, uploadTry, hsz, hex, hw, storeCallsOf] at hc
          rcases hc with hc | hc <;> (subst hc; simp [callPath])
        | ok u =>
          cases hp : fs.publish with
          | error e =>
            simp [uploadImageToWNFS, uploadTry, hsz, hex, hw, hp, storeCallsOf] at hc
            rcases hc with hc | hc | hc <;> (subst hc; simp [callPath])
          | ok v =>
            simp [uploadImageToWNFS, uploadTry, hsz, hex, hw, hp, storeCallsOf] at hc
            rcases hc with hc | hc | hc <;> (subst hc; simp [callPath])

/-- Witness for C10: the write call of a fresh upload addresses the same
path as the entry-time existence check. -/
theorem upload_single_area_read_witness :
    StoreCall.write (filePath gPub.selectedArea demoFile.name) demoFile = StoreCall.publish ∨
    callPath (StoreCall.write (filePath gPub.selectedArea demoFile.name) demoFile) =
      some (filePath gPub.selectedArea demoFile.name) :=
  upload_single_area_read fsDemo gPub demoFile
    (StoreCall.write (filePath gPub.selectedArea demoFile.name) demoFile) (by decide)
